import Mathlib

/-!
Shallow embedding of the PurpleAir temperature-calibration core
(feature engineering and stratified model dispatch), translated from:

* `src/app/utils/feature_engineering.py`  (class `FeatureEngineer`, app pipeline)
* `src/app/utils/model_predictor.py`      (class `TemperatureCalibrator`)
* `src/data/feature_engineering.py`       (class `FeatureEngineer`, data pipeline)
* `src/models/calibration.py`             (class `TemporalTempStratCalibrator`)

Numeric columns are modelled as `List ℚ` (exact rational arithmetic in place
of floats); a pandas `NaN` cell is modelled as `none : Option ℚ`.  The opaque
per-stratum regression models are modelled as functions
`List ℚ → Option ℚ`, where `none` stands for `predict` raising an exception.
`np.log` is kept abstract as a function parameter `logQ : ℚ → ℚ`, since the
dewpoint claims only concern which Magnus-Tetens coefficients surround it.
-/

namespace PurpleAir

/-- Mean of a list of rationals (`Series.mean`); the empty mean is 0,
matching that pandas' `NaN > 50` comparison is `False`. -/
def listMean (xs : List ℚ) : ℚ := xs.sum / (xs.length : ℚ)

/-- `Series.shift(k)`: the first `k` cells become `NaN` (`none`) and cell `i`
(for `i ≥ k`) holds the base value of cell `i - k`. -/
def shiftL (k : ℕ) (xs : List ℚ) : List (Option ℚ) :=
  List.replicate (min k xs.length) none ++ (xs.take (xs.length - k)).map some

/-- Forward fill: auxiliary recursion carrying the last non-`NaN` value seen. -/
def ffillAux (last : Option ℚ) : List (Option ℚ) → List (Option ℚ)
  | [] => []
  | none :: rest => last :: ffillAux last rest
  | some v :: rest => some v :: ffillAux (some v) rest

/-- `Series.fillna(method=ffill)` on one column. -/
def ffill (xs : List (Option ℚ)) : List (Option ℚ) := ffillAux none xs

/-- `Series.fillna(d)`: replace every remaining `NaN` by the constant `d`. -/
def fillna (d : ℚ) (xs : List (Option ℚ)) : List ℚ := xs.map (fun c => c.getD d)

/-- The trailing window that `Series.rolling(window=w)` presents at row `i`:
the last `min (i+1) w` elements of the prefix ending at row `i`. -/
def rollWindow (w : ℕ) (xs : List ℚ) (i : ℕ) : List ℚ :=
  (xs.take (i + 1)).drop (i + 1 - w)

/-- `rolling(window=w, min_periods=1).mean()`. -/
def rollingMean (w : ℕ) (xs : List ℚ) : List ℚ :=
  (List.range xs.length).map (fun i => listMean (rollWindow w xs i))

/-- Sample variance with `ddof=1` (the pandas default): `NaN` (`none`) on a
window of fewer than 2 points, matching `Series.rolling(...).std()` which is
`NaN` on a single-point window. -/
def sampleVar (xs : List ℚ) : Option ℚ :=
  if 2 ≤ xs.length then
    some ((xs.map (fun x => (x - listMean xs) ^ 2)).sum / ((xs.length : ℚ) - 1))
  else none

/-- `rolling(window=w, min_periods=1).std()` with an abstract square root
`sqrtQ` applied to the sample variance; the `NaN` structure (`none`) does not
depend on `sqrtQ`.  This is the data-pipeline form
(`create_rolling_features`, src/data/feature_engineering.py lines 109–113),
which applies no `fillna`. -/
def dataRollingStd (sqrtQ : ℚ → ℚ) (w : ℕ) (xs : List ℚ) : List (Option ℚ) :=
  (List.range xs.length).map (fun i => (sampleVar (rollWindow w xs i)).map sqrtQ)

/-- The app-pipeline rolling standard deviation
(`engineer_all_features`, src/app/utils/feature_engineering.py lines 229–231):
`rolling(window=w, min_periods=1).std().fillna(0)`. -/
def appRollingStd (sqrtQ : ℚ → ℚ) (w : ℕ) (xs : List ℚ) : List ℚ :=
  fillna 0 (dataRollingStd sqrtQ w xs)

/-- Least-squares slope of value against 0-based row index, the slope
coefficient returned by `np.polyfit(time_idx, x, deg=1)` for the window
(closed form of the degree-1 least-squares fit). -/
def lsSlope (xs : List ℚ) : ℚ :=
  let n : ℚ := xs.length
  let idx : List ℚ := (List.range xs.length).map (fun i => (i : ℚ))
  let sx : ℚ := idx.sum
  let sy : ℚ := xs.sum
  let sxx : ℚ := (idx.map (fun i => i ^ 2)).sum
  let sxy : ℚ := ((idx.zip xs).map (fun p => p.1 * p.2)).sum
  (n * sxy - sx * sy) / (n * sxx - sx ^ 2)

/-- `trend_func` from `_calculate_rolling_trend`
(src/data/feature_engineering.py lines 140–145): slope of the window, with an
explicit `0.0` for windows of fewer than 2 points. -/
def trendFunc (xs : List ℚ) : ℚ := if xs.length < 2 then 0 else lsSlope xs

/-- `rolling(window=w, min_periods=minp).apply(f)`: pandas only invokes `f`
on windows holding at least `minp` points and emits `NaN` (`none`) on the
others. -/
def rollingApplyMinp (minp w : ℕ) (f : List ℚ → ℚ) (xs : List ℚ) :
    List (Option ℚ) :=
  (List.range xs.length).map (fun i =>
    let win := rollWindow w xs i
    if minp ≤ win.length then some (f win) else none)

/-- `_calculate_rolling_trend` (src/data/feature_engineering.py lines
128–149): `series.rolling(window=w, min_periods=2).apply(trend_func)`. -/
def calculateRollingTrend (w : ℕ) (xs : List ℚ) : List (Option ℚ) :=
  rollingApplyMinp 2 w trendFunc xs

/-- Booleans cast by `.astype(int)`. -/
def boolToNat (b : Bool) : ℕ := if b then 1 else 0

/-- `s.groupby((s != s.shift()).cumsum()).cumsum()` on a 0/1 series: cumulative
sum restarted at every boundary between maximal runs of equal values.  The
state is the previous value (`prev`, `none` before the first row — `s.shift()`
yields `NaN` there, which compares unequal to everything) and the running sum
within the current run. -/
def groupRunCumsumAux (prev : Option ℕ) (acc : ℕ) : List ℕ → List ℕ
  | [] => []
  | v :: rest =>
    let acc2 := if prev = some v then acc + v else v
    acc2 :: groupRunCumsumAux (some v) acc2 rest

/-- The app-pipeline streak counter (`engineer_all_features`,
src/app/utils/feature_engineering.py lines 257–261):
`s = cond.astype(int); s.groupby((s != s.shift()).cumsum()).cumsum()`. -/
def appStreak (cond : List Bool) : List ℕ :=
  groupRunCumsumAux none 0 (cond.map boolToNat)

/-- `s.groupby((s != s.shift()).cumsum()).cumcount() + 1` on a 0/1 series:
1-based position within each maximal run of equal values. -/
def groupRunCumcountAux (prev : Option ℕ) (cnt : ℕ) : List ℕ → List ℕ
  | [] => []
  | v :: rest =>
    let cnt2 := if prev = some v then cnt + 1 else 1
    cnt2 :: groupRunCumcountAux (some v) cnt2 rest

/-- `_calculate_streak` (src/data/feature_engineering.py lines 246–259):
`streak = cond.astype(int);
 counter = streak.groupby((streak != streak.shift()).cumsum()).cumcount() + 1;
 return counter * streak`. -/
def dataStreak (cond : List Bool) : List ℕ :=
  let s := cond.map boolToNat
  ((groupRunCumcountAux none 0 s).zip s).map (fun p => p.1 * p.2)

/-- Direct recursion computing the count of consecutive `true`s ending at each
row (`c` is the streak carried in from before the list). -/
def simpleStreak (c : ℕ) : List Bool → List ℕ
  | [] => []
  | b :: rest =>
    let c2 := if b then c + 1 else 0
    c2 :: simpleStreak c2 rest

/-- The number of consecutive `true` values ending at row `i` of `cond`. -/
def trailingTrueCount (cond : List Bool) (i : ℕ) : ℕ :=
  (((cond.take (i + 1)).reverse).takeWhile id).length

/-- One Magnus–Tetens evaluation with coefficients `a`, `b`:
`alpha = a*t/(b+t) + log(rh/100); dew = b*alpha/(a-alpha)`.  `logQ` stands for
`np.log`. -/
def magnusDew (logQ : ℚ → ℚ) (a b t rh : ℚ) : ℚ :=
  let alpha := a * t / (b + t) + logQ (rh / 100)
  b * alpha / (a - alpha)

/-- `FeatureEngineer.calculate_dewpoint`
(src/app/utils/feature_engineering.py lines 29–51): a single coefficient set
`a = 17.27`, `b = 237.7` for every input. -/
def appCalcDewpoint (logQ : ℚ → ℚ) (t rh : ℚ) : ℚ :=
  magnusDew logQ (17.27 : ℚ) (237.7 : ℚ) t rh

/-- `FeatureEngineer._calculate_dewpoint`
(src/data/feature_engineering.py lines 301–337), kept in its mask-overwrite
form: start from `dewpoint = temp.copy()`, overwrite the cells with
`temp < 0` using the Buck (1981) coefficients, then overwrite the cells with
`temp ≥ 0` using the Alduchov–Eskridge (1996) coefficients. -/
def dataCalcDewpoint (logQ : ℚ → ℚ) (temp rh : List ℚ) : List ℚ :=
  let dew0 := temp
  let dew1 := (dew0.zip (temp.zip rh)).map (fun p =>
    if p.2.1 < 0 then magnusDew logQ (22.452 : ℚ) (272.55 : ℚ) p.2.1 p.2.2
    else p.1)
  (dew1.zip (temp.zip rh)).map (fun p =>
    if 0 ≤ p.2.1 then magnusDew logQ (17.625 : ℚ) (243.04 : ℚ) p.2.1 p.2.2
    else p.1)

/-- The dewpoint selection rule in the spec's words: Buck (1981)
coefficients for `t < 0`, Alduchov–Eskridge (1996) coefficients for
`t ≥ 0`, chosen independently per element. -/
def signSelectedDewpoint (logQ : ℚ → ℚ) (t rh : ℚ) : ℚ :=
  if t < 0 then magnusDew logQ (22.452 : ℚ) (272.55 : ℚ) t rh
  else magnusDew logQ (17.625 : ℚ) (243.04 : ℚ) t rh

/-- The sensor-temperature column as the app pipeline uses it
(`engineer_all_features`, src/app/utils/feature_engineering.py lines
125–127): `if df[col].mean() > 50: df[col] = (df[col] - 32) * 5/9`. -/
def ensureCelsius (temps : List ℚ) : List ℚ :=
  if 50 < listMean temps then temps.map (fun t => (t - 32) * 5 / 9) else temps

/-- Thermal regime labels of `model_predictor.py` (`cold`/`normal`/`hot`);
the models pipeline spells the middle stratum `moderate`. -/
inductive Stratum where
  | cold
  | normal
  | hot
deriving DecidableEq

/-- `TemperatureCalibrator.determine_temperature_regime`
(src/app/utils/model_predictor.py lines 54–73):
`temp < 10 → cold; temp > 30 → hot; else normal`. -/
def determineRegime (t : ℚ) : Stratum :=
  if t < 10 then .cold else if 30 < t then .hot else .normal

/-- `TemporalTempStratCalibrator._assign_strata` row rule
(src/models/calibration.py lines 175–180): `np.select` with conditions
`[t < p25, t > p75]`, choices `[cold, hot]`, default `moderate` — the first
matching condition wins. -/
def assignStratum (p25 p75 t : ℚ) : Stratum :=
  if t < p25 then .cold else if p75 < t then .hot else .normal

/-- Insertion of one element into a sorted list (the sort underlying
`Series.quantile`). -/
def insertSorted (x : ℚ) : List ℚ → List ℚ
  | [] => [x]
  | y :: ys => if x ≤ y then x :: y :: ys else y :: insertSorted x ys

/-- Ascending sort of the series values, as `Series.quantile` performs. -/
def sortQ (xs : List ℚ) : List ℚ := xs.foldr insertSorted []

/-- `Series.quantile(q)` with pandas' default linear interpolation: on the
sorted values `s`, position `h = q*(n-1)`, result
`s[⌊h⌋] + (h - ⌊h⌋) * (s[⌊h⌋+1] - s[⌊h⌋])`. -/
def pandasQuantile (q : ℚ) (xs : List ℚ) : ℚ :=
  let s := sortQ xs
  if s.length = 0 then 0 else
  let h : ℚ := q * ((s.length : ℚ) - 1)
  let i : ℕ := (Int.floor h).toNat
  let lo := s.getD i 0
  let hi := s.getD (i + 1) lo
  lo + (h - (i : ℚ)) * (hi - lo)

/-- The threshold-resolution step of `_assign_strata`
(src/models/calibration.py lines 167–172): keep the stored
`self.temp_thresholds` when present, else compute the p25/p75 quantiles of
the current batch. -/
def resolveThresholds (stored : Option (ℚ × ℚ)) (temps : List ℚ) : ℚ × ℚ :=
  stored.getD (pandasQuantile (1/4) temps, pandasQuantile (3/4) temps)

/-- `TemporalTempStratCalibrator._assign_strata`
(src/models/calibration.py lines 163–189) as an explicit state transformer:
the stored thresholds (`self.temp_thresholds`, `none` when never set) are
computed from the p25/p75 quantiles of the current batch only when absent,
stored, and then used to label every row of the batch. -/
def assignStrata (stored : Option (ℚ × ℚ)) (temps : List ℚ) :
    (ℚ × ℚ) × List Stratum :=
  let th := resolveThresholds stored temps
  (th, temps.map (fun t => assignStratum th.1 th.2 t))

/-- One input observation row: the raw sensor temperature plus the (already
engineered) feature vector handed to the bound model. -/
structure Row where
  temperature : ℚ
  features : List ℚ
deriving DecidableEq

/-- One output row of `TemperatureCalibrator.calibrate`
(src/app/utils/model_predictor.py lines 117–125): calibrated value, the
derived correction `sensor - calibrated`, and the regime label. -/
structure AppCalRow where
  temperature : ℚ
  calibrated : ℚ
  correction : ℚ
  regime : Stratum
deriving DecidableEq

/-- `TemperatureCalibrator.calibrate`
(src/app/utils/model_predictor.py lines 75–127): per row, pick the model of
the row's regime and predict; the `try/except` catches a failed prediction
(`predict` returning `none`) and substitutes the raw sensor temperature.
Afterwards `calibration_correction = sensor - calibrated` and the regime
label are appended as columns. -/
def appCalibrate (models : Stratum → List ℚ → Option ℚ) (rows : List Row) :
    List AppCalRow :=
  rows.map (fun r =>
    let regime := determineRegime r.temperature
    let calibrated :=
      match models regime r.features with
      | some v => v
      | none => r.temperature
    { temperature := r.temperature
      calibrated := calibrated
      correction := r.temperature - calibrated
      regime := regime })

/-- One output row of `TemporalTempStratCalibrator.calibrate`
(src/models/calibration.py lines 131–139): predicted bias and
`temperature_calibrated = temperature - bias`. -/
structure CalRow where
  temperature : ℚ
  bias : ℚ
  calibrated : ℚ
deriving DecidableEq

/-- The per-stratum block of `TemporalTempStratCalibrator.calibrate`
(src/models/calibration.py lines 131–139): `bias = model.predict(X)`,
`calibrated = temperature - bias`.  A prediction failure (`none`) is an
uncaught exception, aborting the whole batch with an error. -/
def calibrateStratum (predict : List ℚ → Option ℚ) :
    List Row → Except String (List CalRow)
  | [] => .ok []
  | r :: rest =>
    match predict r.features with
    | none => .error "prediction raised"
    | some b =>
      match calibrateStratum predict rest with
      | .error e => .error e
      | .ok out =>
        .ok ({ temperature := r.temperature, bias := b,
               calibrated := r.temperature - b } :: out)

/-- `TemporalTempStratCalibrator.calibrate`
(src/models/calibration.py lines 115–153): resolve thresholds (stored, else
batch quantiles), split the batch by stratum in the fixed order
cold/moderate/hot, run each stratum's model, and concatenate the results. -/
def tempStratCalibrate (models : Stratum → List ℚ → Option ℚ)
    (stored : Option (ℚ × ℚ)) (rows : List Row) :
    Except String (List CalRow) :=
  let th := resolveThresholds stored (rows.map (fun r => r.temperature))
  let strat := fun r => assignStratum th.1 th.2 r.temperature
  match calibrateStratum (models .cold)
      (rows.filter (fun r => decide (strat r = .cold))) with
  | .error e => .error e
  | .ok coldOut =>
    match calibrateStratum (models .normal)
        (rows.filter (fun r => decide (strat r = .normal))) with
    | .error e => .error e
    | .ok modOut =>
      match calibrateStratum (models .hot)
          (rows.filter (fun r => decide (strat r = .hot))) with
      | .error e => .error e
      | .ok hotOut => .ok (coldOut ++ modOut ++ hotOut)

/-! ## Theorems -/

/-- C2: the fixed-threshold classifier of `determine_temperature_regime` is
total and deterministic with disjoint, exhaustive buckets; the boundary
values 10 °C and 30 °C land in the non-extreme (`normal`) bucket; and the
quantile classifier of `_assign_strata` sends `t = p25` and `t = p75` to the
non-extreme bucket whenever `p25 ≤ p75`. -/
theorem C2_stratum_classification :
    (∀ t : ℚ,
      (determineRegime t = .cold ↔ t < 10) ∧
      (determineRegime t = .hot ↔ 30 < t) ∧
      (determineRegime t = .normal ↔ 10 ≤ t ∧ t ≤ 30)) ∧
    determineRegime 10 = .normal ∧
    determineRegime 30 = .normal ∧
    (∀ p25 p75 : ℚ, p25 ≤ p75 →
      assignStratum p25 p75 p25 = .normal ∧
      assignStratum p25 p75 p75 = .normal) := by
  refine ⟨?_, ?_, ?_, ?_⟩
  · intro t
    unfold determineRegime
    split_ifs with h1 h2
    · exact ⟨⟨fun _ => h1, fun _ => rfl⟩,
             ⟨(fun h => nomatch h), fun h => absurd h1 (by linarith)⟩,
             ⟨(fun h => nomatch h), fun h => absurd h1 (by linarith [h.1])⟩⟩
    · exact ⟨⟨(fun h => nomatch h), fun h => absurd h2 (by linarith)⟩,
             ⟨fun _ => h2, fun _ => rfl⟩,
             ⟨(fun h => nomatch h), fun h => absurd h2 (by linarith [h.2])⟩⟩
    · exact ⟨⟨(fun h => nomatch h), fun h => absurd h h1⟩,
             ⟨(fun h => nomatch h), fun h => absurd h h2⟩,
             ⟨fun _ => ⟨not_lt.mp h1, not_lt.mp h2⟩, fun _ => rfl⟩⟩
  · unfold determineRegime
    norm_num
  · unfold determineRegime
    norm_num
  · intro p25 p75 h
    unfold assignStratum
    constructor
    · rw [if_neg (lt_irrefl p25), if_neg (not_lt.mpr h)]
    · rw [if_neg (not_lt.mpr h), if_neg (lt_irrefl p75)]

/-- C2 witness: the claimed classification at concrete inputs, through
`C2_stratum_classification` itself. -/
theorem C2_stratum_classification_witness :
    (determineRegime 5 = .cold ↔ (5 : ℚ) < 10) ∧
    ((2 : ℚ) ≤ 4 →
      assignStratum 2 4 2 = .normal ∧ assignStratum 2 4 4 = .normal) := by
  exact ⟨(C2_stratum_classification.1 5).1,
         C2_stratum_classification.2.2.2 2 4⟩

/-- C7: `_calculate_rolling_trend` does evaluate the least-squares slope on
windows of at least two points (here `[20, 25]` giving slope 5), and its own
`trend_func` returns 0 on a short window, but `min_periods=2` means pandas
never calls `trend_func` on the first row, which therefore emits `NaN`
(`none`) instead of the 0 that the spec and the dead `len < 2` branch
promise. -/
theorem C7_trend_first_row_nan :
    calculateRollingTrend 3 [20, 25] = [none, some 5] ∧
    trendFunc [20] = 0 := by
  have hr : List.range 2 = [0, 1] := rfl
  constructor
  · unfold calculateRollingTrend rollingApplyMinp rollWindow trendFunc lsSlope
    norm_num [hr]
  · unfold trendFunc
    norm_num

/-- C9: the claim that the app feature-engineering core never converts
temperature units is false: on the series `[120, 100]` (mean 110 > 50) the
heuristic at src/app/utils/feature_engineering.py lines 126–127 rescales the
sensor-temperature column from Fahrenheit to Celsius. -/
theorem C9_counterexample :
    ensureCelsius [120, 100] ≠ [120, 100] := by
  unfold ensureCelsius listMean
  norm_num

/-- C9 (amended): the app core passes the caller-supplied temperatures
through unchanged exactly when the series mean is at most 50; when the mean
exceeds 50 it applies the Fahrenheit-to-Celsius map `(t − 32)·5/9` to every
element. -/
theorem C9_unit_conversion (temps : List ℚ) :
    (listMean temps ≤ 50 → ensureCelsius temps = temps) ∧
    (50 < listMean temps →
      ensureCelsius temps = temps.map (fun t => (t - 32) * 5 / 9)) := by
  constructor
  · intro h
    unfold ensureCelsius
    rw [if_neg (not_lt.mpr h)]
  · intro h
    unfold ensureCelsius
    rw [if_pos h]

/-- C9 witness: both branches of `C9_unit_conversion` discharged at concrete
series. -/
theorem C9_unit_conversion_witness :
    (listMean [20, 30] ≤ 50 ∧ ensureCelsius [20, 30] = [20, 30]) ∧
    (50 < listMean [120, 100] ∧
      ensureCelsius [120, 100] =
        [120, 100].map (fun t => (t - 32) * 5 / 9)) := by
  have h1 : listMean [20, 30] ≤ 50 := by norm_num [listMean]
  have h2 : (50 : ℚ) < listMean [120, 100] := by norm_num [listMean]
  exact ⟨⟨h1, (C9_unit_conversion [20, 30]).1 h1⟩,
         ⟨h2, (C9_unit_conversion [120, 100]).2 h2⟩⟩

/-- C10: stratum assignment is batch- and history-dependent.  The
observation 5 °C is labelled `cold` when it arrives in the batch
`[5,6,7,8,9]` (first call on a fresh calibrator: p25 = 6, p75 = 8), `hot`
when it arrives in the batch `[1,2,3,4,5]` on a fresh calibrator
(p25 = 2, p75 = 4), and `cold` again when that second batch is calibrated
after the first one on the same calibrator instance, because the thresholds
stored by the first call are reused. -/
theorem C10_batch_dependent_strata :
    (assignStrata none [5, 6, 7, 8, 9]).2.getD 0 .normal = .cold ∧
    (assignStrata none [1, 2, 3, 4, 5]).2.getD 4 .normal = .hot ∧
    (assignStrata (some (assignStrata none [5, 6, 7, 8, 9]).1)
        [1, 2, 3, 4, 5]).2.getD 4 .normal = .cold := by
  have hs1 : sortQ [5, 6, 7, 8, 9] = [5, 6, 7, 8, 9] := by
    norm_num [sortQ, insertSorted]
  have hs2 : sortQ [1, 2, 3, 4, 5] = [1, 2, 3, 4, 5] := by
    norm_num [sortQ, insertSorted]
  have hq1 : pandasQuantile (1/4) [5, 6, 7, 8, 9] = 6 := by
    rw [pandasQuantile, hs1]; norm_num [Int.toNat_ofNat]
  have htn : (3 : ℤ).toNat = 3 := rfl
  have hq2 : pandasQuantile (3/4) [5, 6, 7, 8, 9] = 8 := by
    rw [pandasQuantile, hs1]; norm_num [htn]
  have hq3 : pandasQuantile (1/4) [1, 2, 3, 4, 5] = 2 := by
    rw [pandasQuantile, hs2]; norm_num [Int.toNat_ofNat]
  have hq4 : pandasQuantile (3/4) [1, 2, 3, 4, 5] = 4 := by
    rw [pandasQuantile, hs2]; norm_num [htn]
  have ht1 : resolveThresholds none [5, 6, 7, 8, 9] = (6, 8) := by
    rw [resolveThresholds, Option.getD_none, hq1, hq2]
  have ht2 : resolveThresholds none [1, 2, 3, 4, 5] = (2, 4) := by
    rw [resolveThresholds, Option.getD_none, hq3, hq4]
  refine ⟨?_, ?_, ?_⟩
  · simp only [assignStrata, ht1]
    norm_num [assignStratum, List.getD_cons_zero, List.getD_cons_succ]
  · simp only [assignStrata, ht2]
    norm_num [assignStratum, List.getD_cons_zero, List.getD_cons_succ]
  · simp only [assignStrata, ht1, Option.getD_some]
    norm_num [resolveThresholds, assignStratum,
              List.getD_cons_zero, List.getD_cons_succ]

/-- The window presented at row 0 is the singleton holding the first value,
for any window size of at least 1. -/
theorem rollWindow_zero (w : ℕ) (x : ℚ) (rest : List ℚ) (hw : 1 ≤ w) :
    rollWindow w (x :: rest) 0 = [x] := by
  unfold rollWindow
  rw [Nat.sub_eq_zero_of_le hw]
  rfl

/-- C5: the claim that the single-point rolling standard deviation is never
`NaN` fails on the data pipeline: `create_rolling_features` applies no
`fillna`, so on the one-row series `[5]` the emitted rolling std is `NaN`
(`none`), not 0. -/
theorem C5_counterexample :
    dataRollingStd (fun q => q) 3 [5] = [none] ∧
    dataRollingStd (fun q => q) 3 [5] ≠ [some 0] := by
  have h : dataRollingStd (fun q => q) 3 [5] = [none] := by
    have hr : List.range 1 = [0] := rfl
    unfold dataRollingStd
    rw [show ([(5 : ℚ)].length) = 1 from rfl, hr]
    rw [List.map_singleton, rollWindow_zero 3 5 [] (by omega)]
    rfl
  exact ⟨h, by rw [h]; simp⟩

/-- C5 (amended): rolling statistics are emitted from the very first row
(`min_periods=1`): the rolling mean at row 0 equals the value at row 0 in
both pipelines; the single-point rolling standard deviation is 0 in the app
pipeline (which appends `.fillna(0)`) but `NaN` (`none`) in the data
pipeline (which does not). -/
theorem C5_rolling_first_row (sqrtQ : ℚ → ℚ) (w : ℕ) (x : ℚ) (rest : List ℚ)
    (hw : 1 ≤ w) :
    (rollingMean w (x :: rest)).getD 0 1 = x ∧
    (appRollingStd sqrtQ w (x :: rest)).getD 0 1 = 0 ∧
    (dataRollingStd sqrtQ w (x :: rest)).getD 0 (some 1) = none := by
  have hlen : (x :: rest).length = rest.length + 1 := rfl
  have hwin := rollWindow_zero w x rest hw
  refine ⟨?_, ?_, ?_⟩
  · unfold rollingMean
    rw [hlen, List.range_succ_eq_map]
    rw [List.map_cons, List.getD_cons_zero, hwin]
    unfold listMean
    norm_num
  · unfold appRollingStd fillna dataRollingStd
    rw [hlen, List.range_succ_eq_map]
    rw [List.map_cons, List.map_cons, List.getD_cons_zero, hwin]
    unfold sampleVar
    norm_num
  · unfold dataRollingStd
    rw [hlen, List.range_succ_eq_map]
    rw [List.map_cons, List.getD_cons_zero, hwin]
    unfold sampleVar
    norm_num

/-- C5 witness: the amended statement discharged on the one-row series `[5]`
with the 3-hour window. -/
theorem C5_rolling_first_row_witness :
    (1 ≤ 3) ∧
    ((rollingMean 3 [5]).getD 0 1 = 5 ∧
     (appRollingStd (fun q => q) 3 [5]).getD 0 1 = 0 ∧
     (dataRollingStd (fun q => q) 3 [5]).getD 0 (some 1) = none) :=
  ⟨by omega, C5_rolling_first_row (fun q => q) 3 5 [] (by omega)⟩

/-- Forward fill leaves a column of present values unchanged, whatever value
was carried in. -/
theorem ffillAux_map_some (l : List ℚ) :
    ∀ last : Option ℚ, ffillAux last (l.map some) = l.map some := by
  induction l with
  | nil => intro last; rfl
  | cons a l ih => intro last; simp only [List.map_cons, ffillAux]; rw [ih]

/-- Forward fill cannot invent values under leading `NaN`s: a `none` prefix
survives and the fill continues with nothing carried in. -/
theorem ffillAux_replicate (m : ℕ) (l : List (Option ℚ)) :
    ffillAux none (List.replicate m none ++ l) =
      List.replicate m none ++ ffillAux none l := by
  induction m with
  | zero => rfl
  | succ m ih =>
    simp only [List.replicate_succ, List.cons_append, ffillAux, List.append_eq]
    rw [ih]

/-- The fill policy applied to a shifted column: the first `min k n` rows
become the 0 default (forward fill finds no prior data there) and the rest
hold the shifted base values. -/
theorem shiftL_filled (k : ℕ) (xs : List ℚ) :
    fillna 0 (ffill (shiftL k xs)) =
      List.replicate (min k xs.length) 0 ++ xs.take (xs.length - k) := by
  unfold shiftL ffill
  rw [ffillAux_replicate, ffillAux_map_some]
  unfold fillna
  rw [List.map_append, List.map_replicate, List.map_map]
  have hcomp : ((fun c : Option ℚ => c.getD 0) ∘ some) = fun a : ℚ => a := by
    funext a
    rfl
  rw [hcomp, List.map_id']
  rfl

/-- C6: for every series and lag depth `k`, the lag column at row `i` holds
the base value of row `i - k` when `i ≥ k`; for `i < k` it is `NaN` (`none`)
before the fill policy and 0 (the zero default — forward fill finds no prior
data for the leading rows) after the `ffill`-then-`fillna(0)` policy. -/
theorem C6_lag_features (k i : ℕ) (xs : List ℚ) (hi : i < xs.length) :
    ((shiftL k xs).getD i (some 1) =
      if i < k then none else some (xs.getD (i - k) 0)) ∧
    ((fillna 0 (ffill (shiftL k xs))).getD i 1 =
      if i < k then 0 else xs.getD (i - k) 0) := by
  have hrep : (List.replicate (min k xs.length) (none : Option ℚ)).length
      = min k xs.length := List.length_replicate _ _
  have hrep0 : (List.replicate (min k xs.length) (0 : ℚ)).length
      = min k xs.length := List.length_replicate _ _
  by_cases hik : i < k
  · have him : i < min k xs.length := lt_min hik hi
    constructor
    · unfold shiftL
      rw [if_pos hik, List.getD_append _ _ _ _ (by rw [hrep]; exact him),
        List.getD_eq_getElem _ _ (by rw [hrep]; exact him)]
      exact List.getElem_replicate _ _
    · rw [shiftL_filled, if_pos hik,
        List.getD_append _ _ _ _ (by rw [hrep0]; exact him),
        List.getD_eq_getElem _ _ (by rw [hrep0]; exact him)]
      exact List.getElem_replicate _ _
  · have hk : k ≤ i := not_lt.mp hik
    have hkn : min k xs.length = k := min_eq_left (hk.trans hi.le)
    have hsub : i - k < xs.length - k := by omega
    have htk : (xs.take (xs.length - k)).length = xs.length - k := by
      rw [List.length_take]; omega
    have hmaps : ((xs.take (xs.length - k)).map some).length = xs.length - k := by
      rw [List.length_map]; exact htk
    have hgetTake : (xs.take (xs.length - k)).getD (i - k) 1 = xs.getD (i - k) 0 := by
      rw [List.getD_eq_getElem _ _ (by rw [htk]; exact hsub), List.getElem_take,
        List.getD_eq_getElem _ _ (by omega)]
    constructor
    · unfold shiftL
      rw [if_neg hik, List.getD_append_right _ _ _ _ (by rw [hrep, hkn]; exact hk),
        hrep, hkn]
      rw [List.getD_eq_getElem _ _ (by rw [hmaps]; exact hsub), List.getElem_map]
      rw [List.getElem_take, ← List.getD_eq_getElem xs 0 (by omega)]
    · rw [shiftL_filled, if_neg hik,
        List.getD_append_right _ _ _ _ (by rw [hrep0, hkn]; exact hk),
        hrep0, hkn, hgetTake]

/-- C6 witness: the lag-2 column of the series `[10, 20, 30, 40]` at the
pre-window row 1 and at the regular row 3, through `C6_lag_features`. -/
theorem C6_lag_features_witness :
    (((shiftL 2 [10, 20, 30, 40]).getD 1 (some 1) =
        if 1 < 2 then none else some ([(10 : ℚ), 20, 30, 40].getD (1 - 2) 0)) ∧
     ((fillna 0 (ffill (shiftL 2 [10, 20, 30, 40]))).getD 1 1 =
        if 1 < 2 then 0 else [(10 : ℚ), 20, 30, 40].getD (1 - 2) 0)) ∧
    (((shiftL 2 [10, 20, 30, 40]).getD 3 (some 1) =
        if 3 < 2 then none else some ([(10 : ℚ), 20, 30, 40].getD (3 - 2) 0)) ∧
     ((fillna 0 (ffill (shiftL 2 [10, 20, 30, 40]))).getD 3 1 =
        if 3 < 2 then 0 else [(10 : ℚ), 20, 30, 40].getD (3 - 2) 0)) :=
  ⟨C6_lag_features 2 1 [10, 20, 30, 40] (by decide),
   C6_lag_features 2 3 [10, 20, 30, 40] (by decide)⟩

/-- The run-grouped cumulative sum of `appStreak` agrees with the direct
streak recursion whenever the carried state is consistent: the accumulator
matches the current streak after a `true` run, and the streak is 0 after a
`false` run or at the start. -/
theorem groupRunCumsumAux_simple (l : List Bool) :
    ∀ (prev : Option ℕ) (acc c : ℕ),
      (prev = some 1 → acc = c) →
      (prev ≠ some 1 → c = 0) →
      (prev = some 0 → acc = 0) →
      groupRunCumsumAux prev acc (l.map boolToNat) = simpleStreak c l := by
  induction l with
  | nil => intro prev acc c h1 h2 h3; rfl
  | cons b rest ih =>
    intro prev acc c h1 h2 h3
    cases b
    case false =>
      show (if prev = some 0 then acc + 0 else 0) ::
          groupRunCumsumAux (some 0) (if prev = some 0 then acc + 0 else 0)
            (rest.map boolToNat)
        = 0 :: simpleStreak 0 rest
      have hacc2 : (if prev = some 0 then acc + 0 else 0) = 0 := by
        by_cases hp : prev = some 0
        · rw [if_pos hp, h3 hp]
        · rw [if_neg hp]
      rw [hacc2]
      exact congrArg (0 :: ·)
        (ih (some 0) 0 0 (fun h => rfl) (fun _ => rfl) (fun _ => rfl))
    case true =>
      show (if prev = some 1 then acc + 1 else 1) ::
          groupRunCumsumAux (some 1) (if prev = some 1 then acc + 1 else 1)
            (rest.map boolToNat)
        = (c + 1) :: simpleStreak (c + 1) rest
      have hacc2 : (if prev = some 1 then acc + 1 else 1) = c + 1 := by
        by_cases hp : prev = some 1
        · rw [if_pos hp, h1 hp]
        · rw [if_neg hp, h2 hp]
      rw [hacc2]
      exact congrArg ((c + 1) :: ·)
        (ih (some 1) (c + 1) (c + 1) (fun _ => rfl)
          (fun h => absurd rfl h) (fun h => absurd h (by simp)))

/-- The app streak column is the direct streak recursion started at 0. -/
theorem appStreak_eq_simple (cond : List Bool) :
    appStreak cond = simpleStreak 0 cond :=
  groupRunCumsumAux_simple cond none 0 0 (fun h => by cases h)
    (fun _ => rfl) (fun h => by cases h)

/-- The run-grouped `cumcount() + 1` counter multiplied by the 0/1 indicator
agrees with the direct streak recursion, under the matching state
consistency. -/
theorem groupRunCumcountAux_simple (l : List Bool) :
    ∀ (prev : Option ℕ) (cnt c : ℕ),
      (prev = some 1 → cnt = c) →
      (prev ≠ some 1 → c = 0) →
      ((groupRunCumcountAux prev cnt (l.map boolToNat)).zip
          (l.map boolToNat)).map (fun p => p.1 * p.2) = simpleStreak c l := by
  induction l with
  | nil => intro prev cnt c h1 h2; rfl
  | cons b rest ih =>
    intro prev cnt c h1 h2
    cases b
    case false =>
      show (if prev = some 0 then cnt + 1 else 1) * 0 ::
          ((groupRunCumcountAux (some 0) (if prev = some 0 then cnt + 1 else 1)
              (rest.map boolToNat)).zip
            (rest.map boolToNat)).map (fun p => p.1 * p.2)
        = 0 :: simpleStreak 0 rest
      rw [Nat.mul_zero]
      exact congrArg (0 :: ·)
        (ih (some 0) _ 0 (fun h => absurd h (by simp)) (fun _ => rfl))
    case true =>
      show (if prev = some 1 then cnt + 1 else 1) * 1 ::
          ((groupRunCumcountAux (some 1) (if prev = some 1 then cnt + 1 else 1)
              (rest.map boolToNat)).zip
            (rest.map boolToNat)).map (fun p => p.1 * p.2)
        = (c + 1) :: simpleStreak (c + 1) rest
      have hcnt2 : (if prev = some 1 then cnt + 1 else 1) = c + 1 := by
        by_cases hp : prev = some 1
        · rw [if_pos hp, h1 hp]
        · rw [if_neg hp, h2 hp]
      rw [hcnt2, Nat.mul_one]
      exact congrArg ((c + 1) :: ·)
        (ih (some 1) (c + 1) (c + 1) (fun _ => rfl) (fun h => absurd rfl h))

/-- The data streak column is the direct streak recursion started at 0. -/
theorem dataStreak_eq_simple (cond : List Bool) :
    dataStreak cond = simpleStreak 0 cond :=
  groupRunCumcountAux_simple cond none 0 0 (fun h => by cases h) (fun _ => rfl)

/-- The length of a `takeWhile` prefix never exceeds the list length. -/
theorem length_takeWhile_le_len (p : Bool → Bool) (l : List Bool) :
    (l.takeWhile p).length ≤ l.length := by
  induction l with
  | nil => exact le_refl 0
  | cons a l ih =>
    rw [List.takeWhile_cons]
    by_cases h : p a = true
    · rw [if_pos h]
      exact Nat.succ_le_succ ih
    · rw [if_neg h]
      exact Nat.zero_le _

/-- Appending one element to the scanned side of a `takeWhile id`: the new
element is absorbed exactly when the old prefix was all-`true`. -/
theorem takeWhile_id_append_singleton (xs : List Bool) (b : Bool) :
    ((xs ++ [b]).takeWhile id).length =
      if (xs.takeWhile id).length = xs.length
      then xs.length + boolToNat b
      else (xs.takeWhile id).length := by
  induction xs with
  | nil =>
    cases b <;> simp [List.takeWhile_cons, boolToNat]
  | cons x xs ih =>
    cases x
    · have e1 : List.takeWhile id (false :: (xs ++ [b])) = [] := rfl
      have e2 : List.takeWhile id (false :: xs) = [] := rfl
      rw [List.cons_append, e1, e2, List.length_nil, List.length_cons]
      rw [if_neg (by omega)]
    · have e1 : List.takeWhile id (true :: (xs ++ [b]))
          = true :: List.takeWhile id (xs ++ [b]) := rfl
      have e2 : List.takeWhile id (true :: xs)
          = true :: List.takeWhile id xs := rfl
      rw [List.cons_append, e1, e2, List.length_cons, List.length_cons,
        List.length_cons, ih]
      have hle := length_takeWhile_le_len id xs
      split_ifs <;> omega

/-- Closed form of the streak recursion at row `i`: the carried-in count `c`
only matters while the whole prefix is still `true`. -/
theorem simpleStreak_getD (l : List Bool) :
    ∀ (c i : ℕ), i < l.length →
      (simpleStreak c l).getD i 0 =
        if trailingTrueCount l i = i + 1 then c + i + 1
        else trailingTrueCount l i := by
  induction l with
  | nil => intro c i hi; cases hi
  | cons b rest ih =>
    intro c i hi
    cases i
    case zero =>
      cases b
      · simp [simpleStreak, trailingTrueCount, List.takeWhile_cons]
      · simp [simpleStreak, trailingTrueCount, List.takeWhile_cons]
    case succ j =>
      have hj : j < rest.length := Nat.lt_of_succ_lt_succ hi
      have htlen : (rest.take (j + 1)).length = j + 1 := by
        rw [List.length_take]
        omega
      have hT : trailingTrueCount (b :: rest) (j + 1)
          = if trailingTrueCount rest j = j + 1
            then (j + 1) + boolToNat b
            else trailingTrueCount rest j := by
        unfold trailingTrueCount
        rw [List.take_succ_cons, List.reverse_cons, takeWhile_id_append_singleton,
          List.length_reverse, htlen]
      have hTle : trailingTrueCount rest j ≤ j + 1 := by
        unfold trailingTrueCount
        calc ((rest.take (j + 1)).reverse.takeWhile id).length
            ≤ (rest.take (j + 1)).reverse.length := length_takeWhile_le_len _ _
          _ = j + 1 := by rw [List.length_reverse, htlen]
      cases b
      · have hstep : (simpleStreak c (false :: rest)).getD (j + 1) 0
            = (simpleStreak 0 rest).getD j 0 := rfl
        rw [hstep, ih 0 j hj, hT]
        by_cases hT2 : trailingTrueCount rest j = j + 1
        · rw [if_pos hT2, if_pos hT2]
          rw [if_neg (by simp [boolToNat])]
          simp [boolToNat]
        · rw [if_neg hT2, if_neg hT2]
          rw [if_neg (by omega)]
      · have hstep : (simpleStreak c (true :: rest)).getD (j + 1) 0
            = (simpleStreak (c + 1) rest).getD j 0 := rfl
        rw [hstep, ih (c + 1) j hj, hT]
        by_cases hT2 : trailingTrueCount rest j = j + 1
        · rw [if_pos hT2, if_pos hT2]
          rw [if_pos (by simp [boolToNat])]
          omega
        · rw [if_neg hT2, if_neg hT2]
          rw [if_neg (by omega)]

/-- C4: both streak implementations (the app pipeline's run-grouped `cumsum`
and the data pipeline's run-grouped `cumcount() + 1` times the indicator)
compute, at every row `i`, the number of consecutive `true` values ending at
`i` — in particular 0 wherever the condition is `false` — and both map the
condition sequence `[F,T,T,F,T]` to the streak sequence `[0,1,2,0,1]`. -/
theorem C4_streak_counter :
    (∀ (cond : List Bool) (i : ℕ), i < cond.length →
      (appStreak cond).getD i 0 = trailingTrueCount cond i ∧
      (dataStreak cond).getD i 0 = trailingTrueCount cond i) ∧
    appStreak [false, true, true, false, true] = [0, 1, 2, 0, 1] ∧
    dataStreak [false, true, true, false, true] = [0, 1, 2, 0, 1] := by
  refine ⟨?_, by decide, by decide⟩
  intro cond i hi
  rw [appStreak_eq_simple, dataStreak_eq_simple, simpleStreak_getD cond 0 i hi]
  constructor <;> (split_ifs with h <;> omega)

/-- C4 witness: the general row property discharged on the condition series
`[false, true, true]` at row 2, through `C4_streak_counter` itself. -/
theorem C4_streak_counter_witness :
    (appStreak [false, true, true]).getD 2 0
        = trailingTrueCount [false, true, true] 2 ∧
    (dataStreak [false, true, true]).getD 2 0
        = trailingTrueCount [false, true, true] 2 :=
  C4_streak_counter.1 [false, true, true] 2 (by decide)

/-- Unrolling the mask-overwrite dewpoint of the data pipeline one row at a
time: the head is the sign-selected Magnus evaluation and the tail recurses. -/
theorem dataCalcDewpoint_cons (logQ : ℚ → ℚ) (t rh : ℚ) (ts rhs : List ℚ) :
    dataCalcDewpoint logQ (t :: ts) (rh :: rhs)
      = signSelectedDewpoint logQ t rh :: dataCalcDewpoint logQ ts rhs := by
  unfold dataCalcDewpoint signSelectedDewpoint
  simp only [List.zip_cons_cons, List.map_cons]
  by_cases h : t < 0
  · rw [if_pos h, if_pos h, if_neg (not_le.mpr h)]
  · rw [if_neg h, if_neg h, if_pos (not_lt.mp h)]

/-- C3: the claim that the dewpoint function selects Buck coefficients for
sub-zero temperatures fails on the app pipeline: at `temp = −5 °C`,
`rh = 50 %` (with the logarithm fixed at the rational stand-in `−7/10` for
`ln 0.5`), `calculate_dewpoint` of src/app/utils/feature_engineering.py
disagrees with the sign-selecting `_calculate_dewpoint` of
src/data/feature_engineering.py. -/
theorem C3_counterexample :
    appCalcDewpoint (fun _ => (-7) / 10) (-5) 50 ≠
      (dataCalcDewpoint (fun _ => (-7) / 10) [-5] [50]).getD 0 0 := by
  rw [dataCalcDewpoint_cons, List.getD_cons_zero]
  unfold signSelectedDewpoint
  rw [if_pos (by norm_num : (-5 : ℚ) < 0)]
  unfold appCalcDewpoint magnusDew
  norm_num

/-- C3 (amended): the data-pipeline dewpoint selects its Magnus–Tetens
coefficients independently for each element by the sign of the temperature —
Buck (1981) `a = 22.452, b = 272.55` for `t < 0` and Alduchov–Eskridge
(1996) `a = 17.625, b = 243.04` for `t ≥ 0` — whereas the app-pipeline
dewpoint applies the single set `a = 17.27, b = 237.7` to every input
regardless of sign. -/
theorem C3_dewpoint_coefficients :
    (∀ (logQ : ℚ → ℚ) (temp rh : List ℚ) (i : ℕ),
      i < temp.length → i < rh.length →
      (dataCalcDewpoint logQ temp rh).getD i 0 =
        signSelectedDewpoint logQ (temp.getD i 0) (rh.getD i 0)) ∧
    (∀ (logQ : ℚ → ℚ) (t rh : ℚ),
      appCalcDewpoint logQ t rh
        = magnusDew logQ (17.27 : ℚ) (237.7 : ℚ) t rh) := by
  constructor
  · intro logQ temp rh i h1 h2
    induction temp generalizing rh i with
    | nil => cases h1
    | cons t ts ih =>
      cases rh with
      | nil => cases h2
      | cons r rs =>
        rw [dataCalcDewpoint_cons]
        cases i with
        | zero =>
          rw [List.getD_cons_zero, List.getD_cons_zero, List.getD_cons_zero]
        | succ j =>
          rw [List.getD_cons_succ, List.getD_cons_succ, List.getD_cons_succ]
          exact ih rs j (Nat.lt_of_succ_lt_succ h1) (Nat.lt_of_succ_lt_succ h2)
  · intro logQ t rh
    rfl

/-- C3 witness: the amended per-element selection discharged on the two-row
series crossing 0 °C, `temp = [−5, 20]`, `rh = [50, 60]`, at each row. -/
theorem C3_dewpoint_coefficients_witness :
    ((dataCalcDewpoint (fun q => q) [-5, 20] [50, 60]).getD 0 0 =
      signSelectedDewpoint (fun q => q)
        ([(-5 : ℚ), 20].getD 0 0) ([(50 : ℚ), 60].getD 0 0)) ∧
    ((dataCalcDewpoint (fun q => q) [-5, 20] [50, 60]).getD 1 0 =
      signSelectedDewpoint (fun q => q)
        ([(-5 : ℚ), 20].getD 1 0) ([(50 : ℚ), 60].getD 1 0)) ∧
    appCalcDewpoint (fun q => q) (-5) 50
      = magnusDew (fun q => q) (17.27 : ℚ) (237.7 : ℚ) (-5) 50 :=
  ⟨C3_dewpoint_coefficients.1 (fun q => q) [-5, 20] [50, 60] 0
      (by decide) (by decide),
   C3_dewpoint_coefficients.1 (fun q => q) [-5, 20] [50, 60] 1
      (by decide) (by decide),
   C3_dewpoint_coefficients.2 (fun q => q) (-5) 50⟩

/-- Every row of a successful per-stratum calibration satisfies the
round-trip identity `bias + calibrated = temperature`. -/
theorem calibrateStratum_ok_mem (p : List ℚ → Option ℚ) :
    ∀ (l : List Row) (out : List CalRow),
      calibrateStratum p l = .ok out →
      ∀ r ∈ out, r.bias + r.calibrated = r.temperature := by
  intro l
  induction l with
  | nil =>
    intro out h r hr
    injection h with h2
    subst h2
    cases hr
  | cons a rest ih =>
    intro out h r hr
    unfold calibrateStratum at h
    cases hp : p a.features with
    | none =>
      rw [hp] at h
      exact Except.noConfusion h
    | some b =>
      rw [hp] at h
      cases hrec : calibrateStratum p rest with
      | error e =>
        rw [hrec] at h
        exact Except.noConfusion h
      | ok out2 =>
        rw [hrec] at h
        injection h with h2
        subst h2
        rcases List.mem_cons.mp hr with hreq | hrm
        · subst hreq
          show b + (a.temperature - b) = a.temperature
          ring
        · exact ih out2 hrec r hrm

/-- A per-stratum calibration containing a row whose prediction raises
(`none`) aborts with an error. -/
theorem calibrateStratum_fails (p : List ℚ → Option ℚ) :
    ∀ (l : List Row) (r : Row), r ∈ l → p r.features = none →
      ∃ msg, calibrateStratum p l = .error msg := by
  intro l
  induction l with
  | nil =>
    intro r hr
    cases hr
  | cons a rest ih =>
    intro r hr hn
    rcases List.mem_cons.mp hr with hreq | hm
    · subst hreq
      refine ⟨"prediction raised", ?_⟩
      unfold calibrateStratum
      rw [hn]
    · unfold calibrateStratum
      cases hp : p a.features with
      | none => exact ⟨"prediction raised", rfl⟩
      | some b =>
        obtain ⟨m, hm2⟩ := ih r hm hn
        rw [hm2]
        exact ⟨m, rfl⟩

/-- C1: the round-trip identity holds exactly, for every output row of both
dispatchers — in the models pipeline `bias + calibrated = temperature`
because `calibrated` is defined as `temperature − bias`, and in the app
pipeline `correction + calibrated = temperature` because `correction` is
defined as `temperature − calibrated`. -/
theorem C1_roundtrip :
    (∀ (models : Stratum → List ℚ → Option ℚ) (stored : Option (ℚ × ℚ))
        (rows : List Row) (out : List CalRow),
      tempStratCalibrate models stored rows = .ok out →
      ∀ r ∈ out, r.bias + r.calibrated = r.temperature) ∧
    (∀ (models : Stratum → List ℚ → Option ℚ) (rows : List Row),
      ∀ r ∈ appCalibrate models rows,
        r.correction + r.calibrated = r.temperature) := by
  constructor
  · intro models stored rows out h r hr
    simp only [tempStratCalibrate] at h
    split at h
    next e heq => exact Except.noConfusion h
    next coldOut heqc =>
      split at h
      next e heq => exact Except.noConfusion h
      next modOut heqm =>
        split at h
        next e heq => exact Except.noConfusion h
        next hotOut heqh =>
          injection h with h2
          subst h2
          rcases List.mem_append.mp hr with hr12 | hr3
          · rcases List.mem_append.mp hr12 with hr1 | hr2
            · exact calibrateStratum_ok_mem _ _ _ heqc r hr1
            · exact calibrateStratum_ok_mem _ _ _ heqm r hr2
          · exact calibrateStratum_ok_mem _ _ _ heqh r hr3
  · intro models rows r hr
    unfold appCalibrate at hr
    rcases List.mem_map.mp hr with ⟨r0, _, rfl⟩
    show r0.temperature - _ + _ = r0.temperature
    ring

/-- C1 witness: the round-trip identity read off a concrete run of each
dispatcher, through `C1_roundtrip` itself. -/
theorem C1_roundtrip_witness :
    tempStratCalibrate (fun _ _ => some 2) (some (10, 30)) [⟨20, []⟩]
        = .ok [⟨20, 2, 20 - 2⟩] ∧
    (⟨20, 2, 20 - 2⟩ : CalRow).bias + (⟨20, 2, 20 - 2⟩ : CalRow).calibrated
        = (⟨20, 2, 20 - 2⟩ : CalRow).temperature ∧
    appCalibrate (fun _ _ => some 18) [⟨20, []⟩]
        = [⟨20, 18, 20 - 18, determineRegime 20⟩] ∧
    (⟨20, 18, 20 - 18, determineRegime 20⟩ : AppCalRow).correction
        + (⟨20, 18, 20 - 18, determineRegime 20⟩ : AppCalRow).calibrated
        = (⟨20, 18, 20 - 18, determineRegime 20⟩ : AppCalRow).temperature := by
  have h1 : tempStratCalibrate (fun _ _ => some 2) (some (10, 30)) [⟨20, []⟩]
      = .ok [⟨20, 2, 20 - 2⟩] := by rfl
  have h2 : appCalibrate (fun _ _ => some 18) [⟨20, []⟩]
      = [⟨20, 18, 20 - 18, determineRegime 20⟩] := by rfl
  refine ⟨h1, ?_, h2, ?_⟩
  · exact C1_roundtrip.1 (fun _ _ => some 2) (some (10, 30)) [⟨20, []⟩]
      [⟨20, 2, 20 - 2⟩] h1 _ (List.mem_singleton.mpr rfl)
  · exact C1_roundtrip.2 (fun _ _ => some 18) [⟨20, []⟩] _
      (h2 ▸ List.mem_singleton.mpr rfl)

/-- C8: the claim that the dispatcher never silently substitutes the raw
sensor temperature is false on the app pipeline: with a model whose
prediction fails on every row, the single row at 20 °C comes back with
`calibrated_temperature` equal to the raw 20 °C and no error is raised. -/
theorem C8_counterexample :
    appCalibrate (fun _ _ => none) [⟨20, []⟩]
        = [⟨20, 20, 20 - 20, determineRegime 20⟩] ∧
    (fun (_ : Stratum) (_ : List ℚ) => (none : Option ℚ))
        (determineRegime 20) ([] : List ℚ) = none := by
  exact ⟨rfl, rfl⟩

/-- C8 (amended): the two dispatchers handle per-row prediction failure
differently.  The app dispatcher catches the failure and substitutes the raw
sensor temperature as the calibrated value of exactly the failing rows,
while the models dispatcher lets the failure abort the batch, surfacing an
error to the caller. -/
theorem C8_failure_handling :
    (∀ (models : Stratum → List ℚ → Option ℚ) (rows : List Row) (i : ℕ)
        (hi : i < rows.length),
      models (determineRegime rows[i].temperature) rows[i].features = none →
      (appCalibrate models rows).getD i ⟨0, 0, 0, .cold⟩ =
        { temperature := rows[i].temperature,
          calibrated := rows[i].temperature,
          correction := rows[i].temperature - rows[i].temperature,
          regime := determineRegime rows[i].temperature }) ∧
    (∀ (models : Stratum → List ℚ → Option ℚ) (stored : Option (ℚ × ℚ))
        (rows : List Row) (r : Row),
      r ∈ rows →
      models (assignStratum
          (resolveThresholds stored (rows.map (fun x => x.temperature))).1
          (resolveThresholds stored (rows.map (fun x => x.temperature))).2
          r.temperature) r.features = none →
      ∃ msg, tempStratCalibrate models stored rows = .error msg) := by
  constructor
  · intro models rows i hi hn
    unfold appCalibrate
    rw [List.getD_eq_getElem _ _ (by rw [List.length_map]; exact hi),
      List.getElem_map]
    simp only [hn]
  · intro models stored rows r hr hn
    cases hsc : assignStratum
        (resolveThresholds stored (rows.map (fun x => x.temperature))).1
        (resolveThresholds stored (rows.map (fun x => x.temperature))).2
        r.temperature with
    | cold =>
      rw [hsc] at hn
      have hmem : r ∈ rows.filter (fun x => decide (assignStratum
          (resolveThresholds stored (rows.map (fun y => y.temperature))).1
          (resolveThresholds stored (rows.map (fun y => y.temperature))).2
          x.temperature = Stratum.cold)) :=
        List.mem_filter.mpr ⟨hr, by rw [hsc]; rfl⟩
      obtain ⟨m, hm⟩ := calibrateStratum_fails (models .cold) _ r hmem hn
      refine ⟨m, ?_⟩
      simp only [tempStratCalibrate]
      rw [hm]
    | normal =>
      rw [hsc] at hn
      cases hcold : calibrateStratum (models .cold)
          (rows.filter (fun x => decide (assignStratum
            (resolveThresholds stored (rows.map (fun y => y.temperature))).1
            (resolveThresholds stored (rows.map (fun y => y.temperature))).2
            x.temperature = Stratum.cold))) with
      | error e =>
        refine ⟨e, ?_⟩
        simp only [tempStratCalibrate]
        rw [hcold]
      | ok coldOut =>
        have hmem : r ∈ rows.filter (fun x => decide (assignStratum
            (resolveThresholds stored (rows.map (fun y => y.temperature))).1
            (resolveThresholds stored (rows.map (fun y => y.temperature))).2
            x.temperature = Stratum.normal)) :=
          List.mem_filter.mpr ⟨hr, by rw [hsc]; rfl⟩
        obtain ⟨m, hm⟩ := calibrateStratum_fails (models .normal) _ r hmem hn
        refine ⟨m, ?_⟩
        simp only [tempStratCalibrate]
        rw [hcold, hm]
    | hot =>
      rw [hsc] at hn
      cases hcold : calibrateStratum (models .cold)
          (rows.filter (fun x => decide (assignStratum
            (resolveThresholds stored (rows.map (fun y => y.temperature))).1
            (resolveThresholds stored (rows.map (fun y => y.temperature))).2
            x.temperature = Stratum.cold))) with
      | error e =>
        refine ⟨e, ?_⟩
        simp only [tempStratCalibrate]
        rw [hcold]
      | ok coldOut =>
        cases hmod : calibrateStratum (models .normal)
            (rows.filter (fun x => decide (assignStratum
              (resolveThresholds stored (rows.map (fun y => y.temperature))).1
              (resolveThresholds stored (rows.map (fun y => y.temperature))).2
              x.temperature = Stratum.normal))) with
        | error e =>
          refine ⟨e, ?_⟩
          simp only [tempStratCalibrate]
          rw [hcold, hmod]
        | ok modOut =>
          have hmem : r ∈ rows.filter (fun x => decide (assignStratum
              (resolveThresholds stored (rows.map (fun y => y.temperature))).1
              (resolveThresholds stored (rows.map (fun y => y.temperature))).2
              x.temperature = Stratum.hot)) :=
            List.mem_filter.mpr ⟨hr, by rw [hsc]; rfl⟩
          obtain ⟨m, hm⟩ := calibrateStratum_fails (models .hot) _ r hmem hn
          refine ⟨m, ?_⟩
          simp only [tempStratCalibrate]
          rw [hcold, hmod, hm]

/-- C8 witness: the amended behaviour discharged on the one-row batch at
20 °C with an always-failing model, through `C8_failure_handling` itself. -/
theorem C8_failure_handling_witness :
    ((appCalibrate (fun _ _ => none) [⟨20, []⟩]).getD 0 ⟨0, 0, 0, .cold⟩ =
      { temperature := (20 : ℚ), calibrated := (20 : ℚ),
        correction := (20 : ℚ) - 20, regime := determineRegime 20 }) ∧
    (∃ msg, tempStratCalibrate (fun _ _ => none) (some (10, 30)) [⟨20, []⟩]
        = .error msg) := by
  constructor
  · exact C8_failure_handling.1 (fun _ _ => none) [⟨20, []⟩] 0
      (by decide) rfl
  · exact C8_failure_handling.2 (fun _ _ => none) (some (10, 30)) [⟨20, []⟩]
      ⟨20, []⟩ (List.mem_singleton.mpr rfl) rfl

end PurpleAir
